import Mathlib

/-!
Verification of the SIYI ZR10 SDK protocol codec (`zr10_python.py`) and the
video-stream freshness pipeline (`siyi_sdk/siyi_stream.py`).

The Python code works on strings of hexadecimal characters: a wire frame is a
`str` of hex digits, and `bytes.fromhex` / `bytes.hex` convert between that
representation and raw bytes.  The embedding mirrors this: a hex string is a
`List Char`, a byte string is a `List Nat` (each element a byte value `< 256`),
and Python slicing `s[a:b]` becomes `(s.drop a).take (b - a)` (Python slices
clamp out-of-range indices exactly as `List.drop`/`List.take` do with `Nat`
subtraction).  A Python function that can raise is embedded with an `Option`
(or `Except Unit`) result, `none`/`error` marking the raised exception.
-/

/-! ## Hexadecimal primitives -/

/-- Value of one hexadecimal character, as accepted by Python's `bytes.fromhex`
and `int(_, 16)`: `0`-`9`, `a`-`f`, `A`-`F`. -/
def hexVal? (c : Char) : Option Nat :=
  if '0' ≤ c ∧ c ≤ '9' then some (c.toNat - 48)
  else if 'a' ≤ c ∧ c ≤ 'f' then some (c.toNat - 87)
  else if 'A' ≤ c ∧ c ≤ 'F' then some (c.toNat - 55)
  else none

/-- Python `bytes.fromhex`: pairs of hex digits, spaces allowed between pairs;
`none` models the `ValueError` raised on malformed input (odd digit count or a
non-hex character). -/
def fromhex? : List Char → Option (List Nat)
  | [] => some []
  | [c] => if c = ' ' then some [] else none
  | c :: d :: ds =>
    if c = ' ' then fromhex? (d :: ds)
    else
      match hexVal? c, hexVal? d with
      | some hi, some lo => (fromhex? ds).map (fun bs => (hi * 16 + lo) :: bs)
      | _, _ => none

/-- One shift step of CRC16/XMODEM (polynomial `0x1021`), masked to 16 bits. -/
def crcRound (crc : Nat) : Nat :=
  if crc &&& 0x8000 ≠ 0 then ((crc <<< 1) ^^^ 0x1021) &&& 0xffff
  else (crc <<< 1) &&& 0xffff

/-- Feed one byte into the CRC16/XMODEM state: XOR into the high byte, then
eight shift steps. -/
def crcByte (crc b : Nat) : Nat :=
  crcRound (crcRound (crcRound (crcRound (crcRound (crcRound (crcRound
    (crcRound (crc ^^^ (b <<< 8)))))))))

/-- Python `crc16.crc16xmodem`: CRC16/XMODEM (polynomial `0x1021`, initial
value `0`) of a byte string. -/
def crc16xmodem (bs : List Nat) : Nat := bs.foldl crcByte 0

/-- Fueled base-16 digit expansion; `hexRepr` supplies fuel `n + 1`, which is
always sufficient (a number has at most `n + 1` digits). -/
def hexReprAux : Nat → Nat → List Char
  | 0, _ => []
  | fuel + 1, n =>
    if n < 16 then [Nat.digitChar n]
    else hexReprAux fuel (n / 16) ++ [Nat.digitChar (n % 16)]

/-- Python `format(n, 'x')`: lowercase hex digits of `n`, no leading zeros,
`"0"` for zero. -/
def hexRepr (n : Nat) : List Char := hexReprAux (n + 1) n

/-- The two-hex-character rendering of one byte (as produced by
`bytes.hex()`, and by `toHex` after reduction modulo 256). -/
def byteHex (b : Nat) : List Char := [Nat.digitChar (b / 16), Nat.digitChar (b % 16)]

/-- Python `bytes.hex()`: two lowercase hex characters per byte. -/
def bytesToHex : List Nat → List Char
  | [] => []
  | b :: bs => byteHex b ++ bytesToHex bs

/-- Python `"".join`-style strip of trailing spaces, used to model `int`'s
tolerance of trailing whitespace. -/
def dropTrailingSpaces (s : List Char) : List Char :=
  (s.reverse.dropWhile (fun c => c = ' ')).reverse

/-- Python `int('0x' + s, base=16)` (and `int(s, base=16)` on the pure hex-digit
strings this SDK feeds it): `none` models the raised `ValueError`.  Trailing
whitespace is stripped as `int` does; Python's tolerance of underscores between
digits is not modeled, since no string containing an underscore can reach the
parser (every character reaching it was either validated by `bytes.fromhex` or
produced by `format(_, 'x')`). -/
def pyIntHex? (s : List Char) : Option Nat :=
  let t := dropTrailingSpaces s
  if t.isEmpty then none
  else t.foldl (fun acc c =>
    match acc, hexVal? c with
    | some a, some v => some (a * 16 + v)
    | _, _ => none) (some 0)

/-! ## Protocol codec (`ZR10SDK`, `zr10_python.py`) -/

/-- `ZR10SDK.calcCRC16` (lines 146-163): the two-byte CRC16 with swapped order
as a hex string; `none` models the caught exception path (malformed hex),
where the function returns Python `None`.  Note the source pads `str_crc` with
a leading `'0'` only when it has exactly 3 characters. -/
def calcCRC16 (msg : List Char) : Option (List Char) :=
  match fromhex? msg with
  | none => none
  | some b =>
    let int_crc := crc16xmodem b
    let str_crc := hexRepr int_crc
    let str_crc := if str_crc.length = 3 then '0' :: str_crc else str_crc
    let c1 := str_crc.drop 2
    let c2 := str_crc.take 2
    some (c1 ++ c2)

/-- Starting bytes `0x5566` as a hex string (`STX` in `encodeMsg`). -/
def STX : List Char := ['5', '5', '6', '6']

/-- The fixed CTRL byte `0x01` as a hex string. -/
def CTRL : List Char := ['0', '1']

/-- The fixed sequence field `0x0000` (low byte on the left) as a hex string. -/
def SEQ : List Char := ['0', '0', '0', '0']

/-- `ZR10SDK.encodeMsg` (lines 165-184): assembles
`STX + CTRL + data_len + SEQ + cmd_id + data`, appends the CRC; empty string if
`calcCRC16` returned `None`. -/
def encodeMsg (data_len data cmd_id : List Char) : List Char :=
  let msg_front := STX ++ CTRL ++ data_len ++ SEQ ++ cmd_id ++ data
  match calcCRC16 msg_front with
  | some crc => msg_front ++ crc
  | none => []

/-- `ZR10SDK.decodeMsg` (lines 107-142).  `some s` is a normal return of the
`DATA` hex string (the empty string on empty input or CRC mismatch); `none`
models the uncaught `ValueError` raised by `int('0x' + data_len, base=16)`
when the length-field slice is empty or not parseable. -/
def decodeMsg (msg : List Char) : Option (List Char) :=
  if msg.length = 0 then some [] else
  let msg_crc := msg.drop (msg.length - 4)
  let payload := msg.take (msg.length - 4)
  let crc := calcCRC16 payload
  if crc ≠ some msg_crc then some [] else
  let l1 := (msg.drop 6).take 2
  let l2 := (msg.drop 8).take 2
  match pyIntHex? (l2 ++ l1) with
  | none => none
  | some data_len => some ((msg.drop 16).take (data_len * 2))

/-- `ZR10SDK.toHex` (lines 53-61): two's-complement hex rendering of an
integer in `nbits` bits (`(val + (1 << nbits)) % (1 << nbits)` formatted with
`format(_, 'x')`, left-padded to 2 characters when it has 1). -/
def toHex (val : Int) (nbits : Nat) : List Char :=
  let m : Int := 2 ^ nbits
  let h := hexRepr ((val + m) % m).toNat
  if h.length = 1 then '0' :: h else h

/-- `ZR10SDK.autoFocusMsg` (lines 217-228): data `"01"`, length `"0100"`,
command id `"04"`. -/
def autoFocusMsg : List Char := encodeMsg ['0', '1', '0', '0'] ['0', '1'] ['0', '4']

/-- `ZR10SDK.stopZoomMsg` (lines 230-241): data `"00"`, length `"0100"`,
command id `"05"`. -/
def stopZoomMsg : List Char := encodeMsg ['0', '1', '0', '0'] ['0', '0'] ['0', '5']

/-- `ZR10SDK.zoomInMsg` (lines 243-254): data `"01"`, length `"0100"`,
command id `"05"`. -/
def zoomInMsg : List Char := encodeMsg ['0', '1', '0', '0'] ['0', '1'] ['0', '5']

/-- `ZR10SDK.zoomOutMsg` (lines 256-267): data `"ff"`, length `"0100"`,
command id `"05"`. -/
def zoomOutMsg : List Char := encodeMsg ['0', '1', '0', '0'] ['f', 'f'] ['0', '5']

/-- `ZR10SDK.centerMsg` (lines 306-317): data `"01"`, length `"0100"`,
command id `"08"`. -/
def centerMsg : List Char := encodeMsg ['0', '1', '0', '0'] ['0', '1'] ['0', '8']

/-- `ZR10SDK.gimbalRotationMsg` (lines 286-304): data is
`toHex(yaw_speed, 8) + toHex(pitch_speed, 8)`, length `"0200"`,
command id `"07"`. -/
def gimbalRotationMsg (yaw_speed pitch_speed : Int) : List Char :=
  encodeMsg ['0', '2', '0', '0'] (toHex yaw_speed 8 ++ toHex pitch_speed 8) ['0', '7']

/-- The message-selection branch of `ZR10SDK.setZoom` (lines 661-666):
`1` selects `zoomInMsg`, `-1` selects `zoomOutMsg`, anything else selects
`stopZoomMsg`. -/
def setZoomMsg (flag : Int) : List Char :=
  if flag = 1 then zoomInMsg
  else if flag = -1 then zoomOutMsg
  else stopZoomMsg

/-- `ZR10SDK.setAutoFocus` (lines 610-647) as a function of the datagram the
socket delivered: `reply = none` models `rcvMsg` returning `None` after the
1-second receive timeout, `reply = some bs` a received datagram of bytes `bs`.
`Except.error ()` models an uncaught exception.  The source calls
`server_msg.hex()` inside a debug log *before* its `if server_msg is None`
check, so the `none` case hits Python's `AttributeError` rather than the
`return None` beneath it. -/
def setAutoFocus (reply : Option (List Nat)) : Except Unit (Option Bool) :=
  let msg := autoFocusMsg
  if msg.length > 0 then
    match reply with
    | none => Except.error ()
    | some server_msg =>
      match decodeMsg (bytesToHex server_msg) with
      | none => Except.error ()
      | some hex_str =>
        if hex_str.length = 0 then Except.ok none
        else
          match pyIntHex? hex_str with
          | none => Except.error ()
          | some flag => if flag = 1 then Except.ok (some true) else Except.ok (some false)
  else Except.ok none

/-- `ZR10SDK.connect` (lines 72-81): the body is `pass`, so every call returns
Python `None`, despite the `-> bool` annotation and the docstring promising
`True`/`False`. -/
def connect : Option Bool := none

/-- `ZR10SDK.disconnect` (lines 82-86): annotated `-> None`, body `pass`;
every call returns Python `None`. -/
def disconnect : Option Bool := none

/-- A frame built the way the message constructors build theirs: `encodeMsg`
applied to the little-endian length field matching the payload, the payload
bytes rendered in hex, and the command id byte. -/
def encodeFrame (cmd_id : Nat) (payload : List Nat) : List Char :=
  encodeMsg (byteHex (payload.length % 256) ++ byteHex (payload.length / 256))
    (bytesToHex payload) (byteHex cmd_id)

/-! ## Stream pipeline (`SIYISTREAM`, `siyi_sdk/siyi_stream.py`) -/

/-- `maxlen` of `self._packet_queue = collections.deque(maxlen=5)` (line 23). -/
def pbCapacity : Nat := 5

/-- The push discipline of `SIYISTREAM._reader_loop` (lines 52-55): when the
queue is at `maxlen`, `popleft()` drops the oldest packet, then `append(packet)`
adds the new one on the right.  The list head is the oldest packet. -/
def pbPush (q : List Nat) (x : Nat) : List Nat :=
  if q.length = pbCapacity then q.drop 1 ++ [x] else q ++ [x]

/-- The consumption step of `SIYISTREAM._decoder_loop` (line 72):
`self._packet_queue.pop()` removes and returns the newest (rightmost) packet;
`none` when the queue is empty (the loop never calls `pop` then, it sleeps). -/
def pbPop (q : List Nat) : Option (Nat × List Nat) :=
  match q.getLast? with
  | none => none
  | some x => some (x, q.dropLast)

/-- The state of a `SIYISTREAM` object relevant to `get_frame`: the `_running`
flag and the `_latest_frame` cache (an image modeled as its pixel bytes;
`ndarray.copy()` is value copying, so the embedding returns the value). -/
structure StreamState where
  running : Bool
  latest_frame : Option (List Nat)
deriving DecidableEq

/-- The `__init__` state (lines 24, 28): `_latest_frame = None`,
`_running = False`. -/
def initState : StreamState := ⟨false, none⟩

/-- `SIYISTREAM.connect` (lines 30-43): returns early when already running,
otherwise sets `_running = True` and starts the threads. -/
def streamConnect (s : StreamState) : StreamState :=
  if s.running then s else { s with running := true }

/-- `SIYISTREAM.disconnect` (lines 93-104): returns early when not running,
otherwise clears `_running`. -/
def streamDisconnect (s : StreamState) : StreamState :=
  if s.running then { s with running := false } else s

/-- A successful decode in `SIYISTREAM._decoder_loop` (lines 74-79): the
decoded image overwrites `_latest_frame` under the mutex. -/
def publishFrame (s : StreamState) (img : List Nat) : StreamState :=
  { s with latest_frame := some img }

/-- Outcome of `SIYISTREAM.get_frame`: the two raised exceptions, or the
returned image copy. -/
inductive GetFrameResult
  | notConnected
  | noFrameYet
  | frame (img : List Nat)
deriving DecidableEq

/-- `SIYISTREAM.get_frame` (lines 84-91): raises when `_running` is false,
raises when `_latest_frame` is `None`, otherwise returns
`self._latest_frame.copy()` (a value copy of the cached image). -/
def get_frame (s : StreamState) : GetFrameResult :=
  if ¬ s.running then GetFrameResult.notConnected
  else
    match s.latest_frame with
    | none => GetFrameResult.noFrameYet
    | some f => GetFrameResult.frame f

/-! ## Helper lemmas -/

theorem hexVal?_digitChar : ∀ x : Nat, x < 16 → hexVal? (Nat.digitChar x) = some x := by decide

theorem digitChar_ne_space : ∀ x : Nat, x < 16 → Nat.digitChar x ≠ ' ' := by decide

theorem fromhex?_bytesToHex : ∀ bs : List Nat, (∀ b ∈ bs, b < 256) →
    fromhex? (bytesToHex bs) = some bs := by
  intro bs
  induction bs with
  | nil => intro _; rfl
  | cons b rest ih =>
    intro h
    have hb : b < 256 := h b (List.mem_cons_self _ _)
    have hdiv : b / 16 < 16 := by omega
    have hmod : b % 16 < 16 := by omega
    have ih' := ih (fun x hx => h x (List.mem_cons_of_mem _ hx))
    show fromhex? (Nat.digitChar (b / 16) :: Nat.digitChar (b % 16) :: bytesToHex rest)
        = some (b :: rest)
    rw [fromhex?, if_neg (digitChar_ne_space _ hdiv), hexVal?_digitChar _ hdiv,
      hexVal?_digitChar _ hmod]
    simp only [ih', Option.map_some']
    congr 2
    omega

theorem crcRound_lt (x : Nat) : crcRound x < 65536 := by
  unfold crcRound
  split <;> exact lt_of_le_of_lt Nat.and_le_right (by norm_num)

theorem crcByte_lt (c b : Nat) : crcByte c b < 65536 := crcRound_lt _

theorem crc16xmodem_lt (bs : List Nat) : crc16xmodem bs < 65536 := by
  have h : ∀ (l : List Nat) (acc : Nat), acc < 65536 → l.foldl crcByte acc < 65536 := by
    intro l
    induction l with
    | nil => intro acc hacc; simpa using hacc
    | cons x xs ih => intro acc _; simpa using ih (crcByte acc x) (crcByte_lt _ _)
  exact h bs 0 (by norm_num)

theorem hexReprAux_congr : ∀ f₁ f₂ n : Nat, n < f₁ → n < f₂ →
    hexReprAux f₁ n = hexReprAux f₂ n := by
  intro f₁
  induction f₁ with
  | zero => intro f₂ n h1 _; exact absurd h1 (Nat.not_lt_zero n)
  | succ g ih =>
    intro f₂ n h1 h2
    cases f₂ with
    | zero => exact absurd h2 (Nat.not_lt_zero n)
    | succ f =>
      show hexReprAux (g + 1) n = hexReprAux (f + 1) n
      rw [hexReprAux, hexReprAux]
      by_cases hn : n < 16
      · rw [if_pos hn, if_pos hn]
      · rw [if_neg hn, if_neg hn, ih f (n / 16) (by omega) (by omega)]

theorem hexRepr_lt {n : Nat} (h : n < 16) : hexRepr n = [Nat.digitChar n] := by
  show hexReprAux (n + 1) n = _
  rw [hexReprAux, if_pos h]

theorem hexRepr_ge {n : Nat} (h : 16 ≤ n) :
    hexRepr n = hexRepr (n / 16) ++ [Nat.digitChar (n % 16)] := by
  show hexReprAux (n + 1) n = hexReprAux (n / 16 + 1) (n / 16) ++ _
  rw [hexReprAux, if_neg (Nat.not_lt.2 h)]
  rw [hexReprAux_congr n (n / 16 + 1) (n / 16) (by omega) (by omega)]

theorem hexRepr_byteHex {n : Nat} (h1 : 16 ≤ n) (h2 : n < 256) : hexRepr n = byteHex n := by
  rw [hexRepr_ge h1, hexRepr_lt (show n / 16 < 16 by omega)]
  rfl

theorem length_bytesToHex (bs : List Nat) : (bytesToHex bs).length = 2 * bs.length := by
  induction bs with
  | nil => rfl
  | cons b rest ih =>
    simp only [bytesToHex, byteHex, List.length_append, List.length_cons, ih,
      List.length_nil]
    omega

theorem calcCRC16_eq {s : List Char} {bs : List Nat} (hs : fromhex? s = some bs)
    (hc : 256 ≤ crc16xmodem bs) :
    calcCRC16 s =
      some (byteHex (crc16xmodem bs % 256) ++ byteHex (crc16xmodem bs / 256)) := by
  have hlt := crc16xmodem_lt bs
  unfold calcCRC16
  rw [hs]
  show some ((if (hexRepr (crc16xmodem bs)).length = 3
      then '0' :: hexRepr (crc16xmodem bs) else hexRepr (crc16xmodem bs)).drop 2 ++
      (if (hexRepr (crc16xmodem bs)).length = 3
      then '0' :: hexRepr (crc16xmodem bs) else hexRepr (crc16xmodem bs)).take 2) = _
  by_cases h4 : crc16xmodem bs < 4096
  · have e1 : hexRepr (crc16xmodem bs) =
        [Nat.digitChar (crc16xmodem bs / 256), Nat.digitChar (crc16xmodem bs / 16 % 16),
         Nat.digitChar (crc16xmodem bs % 16)] := by
      rw [hexRepr_ge (show 16 ≤ crc16xmodem bs by omega),
        hexRepr_byteHex (show 16 ≤ crc16xmodem bs / 16 by omega)
          (show crc16xmodem bs / 16 < 256 by omega)]
      show [Nat.digitChar (crc16xmodem bs / 16 / 16), _] ++ _ = _
      rw [show crc16xmodem bs / 16 / 16 = crc16xmodem bs / 256 by omega]
      rfl
    rw [e1]
    show some ([Nat.digitChar (crc16xmodem bs / 16 % 16), Nat.digitChar (crc16xmodem bs % 16),
      '0', Nat.digitChar (crc16xmodem bs / 256)]) = _
    simp only [byteHex, List.cons_append, List.nil_append, Option.some.injEq, List.cons.injEq,
      and_true]
    refine ⟨?_, ?_, ?_, ?_⟩
    · rw [show crc16xmodem bs % 256 / 16 = crc16xmodem bs / 16 % 16 by omega]
    · rw [show crc16xmodem bs % 256 % 16 = crc16xmodem bs % 16 by omega]
    · rw [show crc16xmodem bs / 256 / 16 = 0 by omega]
      rfl
    · rw [show crc16xmodem bs / 256 % 16 = crc16xmodem bs / 256 by omega]
  · have e1 : hexRepr (crc16xmodem bs) =
        [Nat.digitChar (crc16xmodem bs / 256 / 16), Nat.digitChar (crc16xmodem bs / 256 % 16),
         Nat.digitChar (crc16xmodem bs / 16 % 16), Nat.digitChar (crc16xmodem bs % 16)] := by
      rw [hexRepr_ge (show 16 ≤ crc16xmodem bs by omega),
        hexRepr_ge (show 16 ≤ crc16xmodem bs / 16 by omega),
        show crc16xmodem bs / 16 / 16 = crc16xmodem bs / 256 by omega,
        hexRepr_byteHex (show 16 ≤ crc16xmodem bs / 256 by omega)
          (show crc16xmodem bs / 256 < 256 by omega)]
      rfl
    rw [e1]
    show some ([Nat.digitChar (crc16xmodem bs / 16 % 16), Nat.digitChar (crc16xmodem bs % 16),
      Nat.digitChar (crc16xmodem bs / 256 / 16), Nat.digitChar (crc16xmodem bs / 256 % 16)]) = _
    simp only [byteHex, List.cons_append, List.nil_append, Option.some.injEq, List.cons.injEq,
      and_true]
    refine ⟨?_, ?_⟩
    · rw [show crc16xmodem bs % 256 / 16 = crc16xmodem bs / 16 % 16 by omega]
    · rw [show crc16xmodem bs % 256 % 16 = crc16xmodem bs % 16 by omega]

theorem calcCRC16_none_iff (s : List Char) : calcCRC16 s = none ↔ fromhex? s = none := by
  unfold calcCRC16
  cases h : fromhex? s <;> simp

theorem pyIntHex?_digits4 {a b c d : Nat} (ha : a < 16) (hb : b < 16) (hc : c < 16)
    (hd : d < 16) :
    pyIntHex? [Nat.digitChar a, Nat.digitChar b, Nat.digitChar c, Nat.digitChar d] =
      some (((a * 16 + b) * 16 + c) * 16 + d) := by
  have hds : decide (Nat.digitChar d = ' ') = false :=
    decide_eq_false (digitChar_ne_space _ hd)
  unfold pyIntHex? dropTrailingSpaces
  simp only [List.reverse_cons, List.reverse_nil, List.nil_append, List.cons_append,
    List.dropWhile_cons, hds, Bool.false_eq_true, if_false, List.reverse_append,
    List.reverse_singleton, List.isEmpty_cons, List.foldl_cons, List.foldl_nil,
    hexVal?_digitChar _ ha, hexVal?_digitChar _ hb, hexVal?_digitChar _ hc,
    hexVal?_digitChar _ hd]
  norm_num

theorem decode_valid_frame (b0 b1 b2 b3 b4 b5 b6 b7 : Nat) (payload : List Nat)
    (h0 : b0 < 256) (h1 : b1 < 256) (h2 : b2 < 256) (h3 : b3 < 256) (h4 : b4 < 256)
    (h5 : b5 < 256) (h6 : b6 < 256) (h7 : b7 < 256)
    (hp : ∀ b ∈ payload, b < 256)
    (hlen : b3 + 256 * b4 = payload.length)
    (hcrc : 256 ≤ crc16xmodem ([b0, b1, b2, b3, b4, b5, b6, b7] ++ payload)) :
    decodeMsg (bytesToHex ([b0, b1, b2, b3, b4, b5, b6, b7] ++ payload) ++
        (byteHex (crc16xmodem ([b0, b1, b2, b3, b4, b5, b6, b7] ++ payload) % 256) ++
         byteHex (crc16xmodem ([b0, b1, b2, b3, b4, b5, b6, b7] ++ payload) / 256))) =
      some (bytesToHex payload) := by
  have hfront : ∀ b ∈ [b0, b1, b2, b3, b4, b5, b6, b7] ++ payload, b < 256 := by
    intro x hx
    rcases List.mem_append.1 hx with hx | hx
    · simp only [List.mem_cons, List.not_mem_nil, or_false] at hx
      rcases hx with rfl | rfl | rfl | rfl | rfl | rfl | rfl | rfl <;> assumption
    · exact hp x hx
  set F : List Char := bytesToHex ([b0, b1, b2, b3, b4, b5, b6, b7] ++ payload) with hFdef
  set crcs : List Char :=
    byteHex (crc16xmodem ([b0, b1, b2, b3, b4, b5, b6, b7] ++ payload) % 256) ++
    byteHex (crc16xmodem ([b0, b1, b2, b3, b4, b5, b6, b7] ++ payload) / 256) with hcrcsdef
  have hF : F.length = 16 + 2 * payload.length := by
    rw [hFdef, length_bytesToHex]
    simp only [List.length_append, List.length_cons, List.length_nil]
    omega
  have hcrcstr : crcs.length = 4 := rfl
  have hmsglen : (F ++ crcs).length = 20 + 2 * payload.length := by
    rw [List.length_append, hF, hcrcstr]
    omega
  have e1 : (F ++ crcs).take ((F ++ crcs).length - 4) = F := by
    rw [show (F ++ crcs).length - 4 = F.length by omega]
    exact List.take_left F crcs
  have e2 : (F ++ crcs).drop ((F ++ crcs).length - 4) = crcs := by
    rw [show (F ++ crcs).length - 4 = F.length by omega]
    exact List.drop_left F crcs
  have e3 : calcCRC16 F = some crcs :=
    calcCRC16_eq (fromhex?_bytesToHex _ hfront) hcrc
  have e4 : ((F ++ crcs).drop 8).take 2 ++ ((F ++ crcs).drop 6).take 2
      = [Nat.digitChar (b4 / 16), Nat.digitChar (b4 % 16),
         Nat.digitChar (b3 / 16), Nat.digitChar (b3 % 16)] := rfl
  have e7 : (F ++ crcs).drop 16 = bytesToHex payload ++ crcs := rfl
  have hplen : (bytesToHex payload).length = payload.length * 2 := by
    rw [length_bytesToHex]; omega
  simp only [decodeMsg]
  rw [if_neg (show ¬ ((F ++ crcs).length = 0) by omega)]
  rw [e1, e2, e3]
  rw [if_neg (show ¬ (some crcs ≠ some crcs) by simp)]
  rw [e4, pyIntHex?_digits4 (by omega) (by omega) (by omega) (by omega)]
  show some (((F ++ crcs).drop 16).take
      ((((b4 / 16 * 16 + b4 % 16) * 16 + b3 / 16) * 16 + b3 % 16) * 2)) =
    some (bytesToHex payload)
  rw [show (((b4 / 16 * 16 + b4 % 16) * 16 + b3 / 16) * 16 + b3 % 16) = payload.length by omega]
  rw [e7, List.take_left' hplen]

theorem calcCRC16_some {s : List Char} {bs : List Nat} (hs : fromhex? s = some bs) :
    ∃ t, calcCRC16 s = some t := by
  unfold calcCRC16
  rw [hs]
  exact ⟨_, rfl⟩

theorem encodeMsg_eq (data_len data cmd_id crc : List Char)
    (h : calcCRC16 (STX ++ CTRL ++ data_len ++ SEQ ++ cmd_id ++ data) = some crc) :
    encodeMsg data_len data cmd_id =
      STX ++ CTRL ++ data_len ++ SEQ ++ cmd_id ++ data ++ crc := by
  show (match calcCRC16 (STX ++ CTRL ++ data_len ++ SEQ ++ cmd_id ++ data) with
    | some c => STX ++ CTRL ++ data_len ++ SEQ ++ cmd_id ++ data ++ c
    | none => []) = _
  rw [h]

theorem msg_front_eq (dl0 dl1 cmd : Nat) (payload : List Nat) :
    STX ++ CTRL ++ (byteHex dl0 ++ byteHex dl1) ++ SEQ ++ byteHex cmd ++ bytesToHex payload
      = bytesToHex ([0x55, 0x66, 0x01, dl0, dl1, 0, 0, cmd] ++ payload) := rfl

theorem toHex_byte (v : Int) :
    toHex v 8 = byteHex ((v + 256) % 256).toNat ∧ ((v + 256) % 256).toNat < 256 := by
  have h0 : (0 : Int) ≤ (v + 256) % 256 := Int.emod_nonneg _ (by norm_num)
  have h1 : (v + 256) % 256 < 256 := Int.emod_lt_of_pos _ (by norm_num)
  have hn : ((v + 256) % 256).toNat < 256 := by omega
  refine ⟨?_, hn⟩
  have hm : toHex v 8 =
      (if (hexRepr ((v + 256) % 256).toNat).length = 1
       then '0' :: hexRepr ((v + 256) % 256).toNat
       else hexRepr ((v + 256) % 256).toNat) := by
    unfold toHex
    norm_num
  rw [hm]
  by_cases h16 : ((v + 256) % 256).toNat < 16
  · rw [hexRepr_lt h16]
    rw [if_pos (List.length_singleton _)]
    unfold byteHex
    rw [show ((v + 256) % 256).toNat / 16 = 0 by omega,
      show ((v + 256) % 256).toNat % 16 = ((v + 256) % 256).toNat by omega]
    rfl
  · rw [hexRepr_byteHex (Nat.not_lt.1 h16) hn]
    exact if_neg (by simp [byteHex])

/-! ## Claim theorems -/

/-- C1 (amended): for every command id and payload (bytes, length below `2^16`),
`encodeFrame` — `encodeMsg` with the matching little-endian length field —
decodes back to exactly the original payload *provided* the frame's CRC16 value
is at least `0x100`, so that `calcCRC16` appends the full 4-hex-character
checksum.  (When the CRC16 value is below `0x100` the appended checksum is 1 or
2 characters, the decoder's trailing-4-character slice misaligns, and the
payload is not recovered; see the counterexample.) -/
theorem C1_encode_decode (cmd : Nat) (payload : List Nat)
    (hcmd : cmd < 256) (hp : ∀ b ∈ payload, b < 256) (hlen : payload.length < 65536)
    (hcrc : 256 ≤ crc16xmodem
      ([0x55, 0x66, 0x01, payload.length % 256, payload.length / 256, 0, 0, cmd] ++ payload)) :
    decodeMsg (encodeFrame cmd payload) = some (bytesToHex payload) := by
  have hfb : ∀ b ∈ [0x55, 0x66, 0x01, payload.length % 256, payload.length / 256, 0, 0, cmd]
      ++ payload, b < 256 := by
    intro x hx
    rcases List.mem_append.1 hx with hx | hx
    · simp only [List.mem_cons, List.not_mem_nil, or_false] at hx
      rcases hx with rfl | rfl | rfl | rfl | rfl | rfl | rfl | rfl <;> omega
    · exact hp x hx
  have hc := calcCRC16_eq (fromhex?_bytesToHex _ hfb) hcrc
  rw [← msg_front_eq] at hc
  have henc := encodeMsg_eq _ _ _ _ hc
  show decodeMsg (encodeMsg
      (byteHex (payload.length % 256) ++ byteHex (payload.length / 256))
      (bytesToHex payload) (byteHex cmd)) = _
  rw [henc, msg_front_eq]
  exact decode_valid_frame 0x55 0x66 0x01 (payload.length % 256) (payload.length / 256) 0 0 cmd
    payload (by norm_num) (by norm_num) (by norm_num) (by omega) (by omega) (by norm_num)
    (by norm_num) hcmd hp (by omega) hcrc

set_option maxRecDepth 8000 in
/-- C1 counterexample: command id `0xfe` with one-byte payload `0xd7` gives a
frame whose CRC16 value is `13 < 0x100`; the encoded frame is non-empty, yet
decoding it does not return the payload (the short checksum misaligns the
decoder's slices, the CRC check fails and the empty string comes back). -/
theorem C1_counterexample :
    encodeFrame 0xfe [0xd7] ≠ [] ∧
    decodeMsg (encodeFrame 0xfe [0xd7]) ≠ some (bytesToHex [0xd7]) := by
  exact ⟨by decide, by decide⟩

set_option maxRecDepth 8000 in
/-- C1 witness: the centre-gimbal frame (command `0x08`, payload `0x01`) has
CRC16 value `0x12d1 ≥ 0x100` and round-trips. -/
theorem C1_witness :
    256 ≤ crc16xmodem
      ([0x55, 0x66, 0x01, [0x01].length % 256, [0x01].length / 256, 0, 0, 0x08] ++ [0x01]) ∧
    decodeMsg (encodeFrame 0x08 [0x01]) = some (bytesToHex [0x01]) :=
  ⟨by decide, C1_encode_decode 0x08 [0x01] (by decide) (by decide) (by decide) (by decide)⟩

/-- C2: the packet buffer's push keeps the size at most 5 (the `maxlen`,
evicting the oldest when full), pushing 6 items into the empty buffer leaves
exactly the last 5 (the 1st-pushed item is the one evicted), and consumption
(`pop`) removes the most recently pushed packet still present, never the
oldest. -/
theorem C2_packet_buffer :
    (∀ (q : List Nat) (x : Nat), q.length ≤ 5 → (pbPush q x).length ≤ 5) ∧
    (∀ a1 a2 a3 a4 a5 a6 : Nat,
      ([a1, a2, a3, a4, a5, a6].foldl pbPush []) = [a2, a3, a4, a5, a6]) ∧
    (∀ (q : List Nat) (x : Nat), pbPop (q ++ [x]) = some (x, q)) := by
  refine ⟨fun q x hq => ?_, fun a1 a2 a3 a4 a5 a6 => rfl, fun q x => ?_⟩
  · unfold pbPush
    split
    · rename_i h
      simp only [pbCapacity] at h
      simp only [List.length_append, List.length_drop, List.length_singleton]
      omega
    · simp only [List.length_append, List.length_singleton]
      rename_i h
      simp only [pbCapacity] at h
      omega
  · unfold pbPop
    rw [List.getLast?_concat]
    show some (x, (q ++ [x]).dropLast) = some (x, q)
    rw [List.dropLast_concat]

/-- C2 witness: pushing into a full 5-element buffer keeps the size at 5. -/
theorem C2_witness : (pbPush [1, 2, 3, 4, 5] 6).length ≤ 5 :=
  C2_packet_buffer.1 [1, 2, 3, 4, 5] 6 (by decide)

set_option maxRecDepth 8000 in
/-- C3 (code bug): when no datagram arrives within the receive timeout
(`rcvMsg` returns `None`), `setAutoFocus` raises instead of returning `None`:
it evaluates `server_msg.hex()` in a debug log *before* its
`if server_msg is None` check, so the timeout path hits an `AttributeError`
(`Except.error` in the embedding) and the `return None` below is dead code. -/
theorem C3_setAutoFocus_timeout_raises : setAutoFocus none = Except.error () := rfl

/-- C4 (amended): for a well-formed hexadecimal input whose CRC16/XMODEM value
is at least `0x100`, `calcCRC16` returns exactly the 4-hex-character checksum
with its two bytes swapped (low byte first); and it returns the sentinel `None`
exactly when the input is malformed hex.  (When the CRC16 value is below
`0x100` the result has fewer than 4 characters and is not byte-swapped, because
the code pads the formatted CRC only when it has exactly 3 characters; see the
counterexample.) -/
theorem C4_calcCRC16_swapped :
    (∀ (s : List Char) (bs : List Nat), fromhex? s = some bs → 256 ≤ crc16xmodem bs →
      calcCRC16 s =
        some (byteHex (crc16xmodem bs % 256) ++ byteHex (crc16xmodem bs / 256)) ∧
      (byteHex (crc16xmodem bs % 256) ++ byteHex (crc16xmodem bs / 256)).length = 4) ∧
    (∀ s : List Char, calcCRC16 s = none ↔ fromhex? s = none) :=
  ⟨fun _ _ hs hc => ⟨calcCRC16_eq hs hc, rfl⟩, calcCRC16_none_iff⟩

/-- C4 counterexample: the well-formed hex input `"00"` (one zero byte) has
CRC16 value `0`, and `calcCRC16` returns the 1-character string `"0"`, not a
2-byte (4 hex character) checksum. -/
theorem C4_counterexample :
    calcCRC16 ['0', '0'] = some ['0'] ∧ (['0'] : List Char).length ≠ 4 := by
  exact ⟨by decide, by decide⟩

/-- C4 witness: the two-byte input `"5566"` has CRC16 value `0xfd2a ≥ 0x100`
and gets the swapped 4-character checksum. -/
theorem C4_witness :
    fromhex? ['5', '5', '6', '6'] = some [0x55, 0x66] ∧
    256 ≤ crc16xmodem [0x55, 0x66] ∧
    calcCRC16 ['5', '5', '6', '6'] =
      some (byteHex (crc16xmodem [0x55, 0x66] % 256) ++
        byteHex (crc16xmodem [0x55, 0x66] / 256)) :=
  ⟨by decide, by decide, (C4_calcCRC16_swapped.1 _ _ (by decide) (by decide)).1⟩

/-- C5 (amended): `decodeMsg` performs no minimum-length or header-consistency
validation before slicing.  It returns the empty result without raising on
empty input and on every input whose trailing-4-character CRC comparison fails
(which covers most too-short inputs), but a short input that happens to pass
the CRC comparison — such as the 1-character string `"0"` — reaches the
length-field parse with an empty slice and raises a `ValueError` instead of
returning empty (see the counterexample). -/
theorem C5_decode_returns_empty :
    decodeMsg [] = some [] ∧
    (∀ msg : List Char, msg ≠ [] →
      calcCRC16 (msg.take (msg.length - 4)) ≠ some (msg.drop (msg.length - 4)) →
      decodeMsg msg = some []) := by
  refine ⟨rfl, fun msg hne hcrc => ?_⟩
  simp only [decodeMsg]
  rw [if_neg (fun h => hne (List.length_eq_zero.mp h))]
  rw [if_pos hcrc]

/-- C5 counterexample: `decodeMsg "0"` passes the CRC comparison (the CRC of
the empty payload formats to `"0"`, equal to the trailing slice) and then
raises (`none` in the embedding) in `int('0x' + data_len, base=16)` because the
length-field slice of a 1-character message is empty — it neither validates the
minimum frame length nor returns the empty result. -/
theorem C5_counterexample : decodeMsg ['0'] = none := by decide

/-- C5 witness: a 2-character non-frame input fails the CRC comparison and
yields the empty result without raising. -/
theorem C5_witness : decodeMsg ['a', 'b'] = some [] :=
  C5_decode_returns_empty.2 ['a', 'b'] (by decide) (by decide)

/-- C6: `get_frame` reports not-connected when the pipeline was never started
(initial state) or has been stopped (any state after `disconnect`), reports
no-frame-yet when running with an empty cache, and otherwise returns (a copy
of) the cached image — in particular the image just published by the decoder. -/
theorem C6_get_frame :
    get_frame initState = GetFrameResult.notConnected ∧
    (∀ s : StreamState, get_frame (streamDisconnect s) = GetFrameResult.notConnected) ∧
    (∀ s : StreamState, s.running = true → s.latest_frame = none →
      get_frame s = GetFrameResult.noFrameYet) ∧
    (∀ (s : StreamState) (img : List Nat), s.running = true →
      get_frame (publishFrame s img) = GetFrameResult.frame img) ∧
    (∀ (s : StreamState) (f : List Nat), s.running = true → s.latest_frame = some f →
      get_frame s = GetFrameResult.frame f) := by
  refine ⟨rfl, fun s => ?_, fun s h1 h2 => ?_, fun s img h1 => ?_, fun s f h1 h2 => ?_⟩
  · cases hs : s.running <;> simp [streamDisconnect, get_frame, hs]
  · simp [get_frame, h1, h2]
  · simp [get_frame, publishFrame, h1]
  · simp [get_frame, h1, h2]

/-- C6 witness: a running pipeline with an empty cache reports no-frame-yet. -/
theorem C6_witness : get_frame ⟨true, none⟩ = GetFrameResult.noFrameYet :=
  C6_get_frame.2.2.1 ⟨true, none⟩ rfl rfl

/-- C7 (amended): on a CRC-valid frame, `decodeMsg` extracts the payload length
from the little-endian length field and slices exactly that many payload bytes
starting immediately after the fixed **8-byte** header
(STX 2 + CTRL 1 + LEN 2 + SEQ 2 + CMD 1 = 8 bytes, i.e. 16 hex characters) —
not a 7-byte header as the claim states, since those five fields total 8 bytes
and the code slices `msg[16:16+char_len]`. -/
theorem C7_payload_slicing (b0 b1 b2 b3 b4 b5 b6 b7 : Nat) (payload : List Nat)
    (h0 : b0 < 256) (h1 : b1 < 256) (h2 : b2 < 256) (h3 : b3 < 256) (h4 : b4 < 256)
    (h5 : b5 < 256) (h6 : b6 < 256) (h7 : b7 < 256)
    (hp : ∀ b ∈ payload, b < 256)
    (hlen : b3 + 256 * b4 = payload.length)
    (hcrc : 256 ≤ crc16xmodem ([b0, b1, b2, b3, b4, b5, b6, b7] ++ payload)) :
    decodeMsg (bytesToHex ([b0, b1, b2, b3, b4, b5, b6, b7] ++ payload) ++
        (byteHex (crc16xmodem ([b0, b1, b2, b3, b4, b5, b6, b7] ++ payload) % 256) ++
         byteHex (crc16xmodem ([b0, b1, b2, b3, b4, b5, b6, b7] ++ payload) / 256))) =
      some (bytesToHex payload) :=
  decode_valid_frame b0 b1 b2 b3 b4 b5 b6 b7 payload h0 h1 h2 h3 h4 h5 h6 h7 hp hlen hcrc

set_option maxRecDepth 8000 in
/-- C7 counterexample: on the CRC-valid centre-gimbal frame, the decoded
payload is the `"01"` found at hex offset 16 (after 8 header bytes); a 7-byte
header would put the payload at hex offset 14, where the CMD byte `"08"` sits
instead. -/
theorem C7_counterexample :
    decodeMsg centerMsg = some ['0', '1'] ∧
    (centerMsg.drop 14).take 2 = ['0', '8'] ∧
    (['0', '1'] : List Char) ≠ ['0', '8'] := by
  exact ⟨by decide, by decide, by decide⟩

set_option maxRecDepth 8000 in
/-- C7 witness: the centre-gimbal header bytes with payload `0x01`. -/
theorem C7_witness :
    decodeMsg (bytesToHex ([0x55, 0x66, 0x01, 0x01, 0x00, 0x00, 0x00, 0x08] ++ [0x01]) ++
        (byteHex (crc16xmodem ([0x55, 0x66, 0x01, 0x01, 0x00, 0x00, 0x00, 0x08] ++ [0x01]) % 256) ++
         byteHex (crc16xmodem ([0x55, 0x66, 0x01, 0x01, 0x00, 0x00, 0x00, 0x08] ++ [0x01]) / 256))) =
      some (bytesToHex [0x01]) :=
  C7_payload_slicing 0x55 0x66 0x01 0x01 0x00 0x00 0x00 0x08 [0x01]
    (by decide) (by decide) (by decide) (by decide) (by decide) (by decide) (by decide)
    (by decide) (by decide) (by decide) (by decide)

/-- C8 (code bug): `ZR10SDK.connect` is annotated `-> bool` and its docstring
promises `True`/`False`, but its body is `pass`, so every call returns `None`
(never a boolean); `disconnect` likewise returns `None`. -/
theorem C8_connect_returns_none :
    connect = none ∧ disconnect = none ∧ ∀ b : Bool, connect ≠ some b :=
  ⟨rfl, rfl, by decide⟩

/-- C9: for every integer speed argument (including values outside −100..100),
`toHex _ 8` encodes the speed as the single byte `(v + 2^8) % 2^8` — i.e.
wrapped modulo 256 — rendered as exactly two hex characters, and
`gimbalRotationMsg` places those two wrapped bytes as its data field (hex
characters 16..20 of the frame): out-of-range speeds are silently wrapped,
never rejected (the message is always built) nor clamped. -/
theorem C9_speed_wrapping (y p : Int) :
    toHex y 8 = byteHex ((y + 256) % 256).toNat ∧
    (toHex y 8).length = 2 ∧
    gimbalRotationMsg y p ≠ [] ∧
    ((gimbalRotationMsg y p).drop 16).take 4 =
      byteHex ((y + 256) % 256).toNat ++ byteHex ((p + 256) % 256).toNat := by
  obtain ⟨hy, hylt⟩ := toHex_byte y
  obtain ⟨hq, hqlt⟩ := toHex_byte p
  have hfb : ∀ b ∈ [0x55, 0x66, 0x01, 0x02, 0x00, 0x00, 0x00, 0x07] ++
      [((y + 256) % 256).toNat, ((p + 256) % 256).toNat], b < 256 := by
    intro x hx
    rcases List.mem_append.1 hx with hx | hx <;>
      simp only [List.mem_cons, List.not_mem_nil, or_false] at hx
    · rcases hx with rfl | rfl | rfl | rfl | rfl | rfl | rfl | rfl <;> omega
    · rcases hx with rfl | rfl <;> omega
  obtain ⟨t, ht⟩ := calcCRC16_some (fromhex?_bytesToHex _ hfb)
  rw [← msg_front_eq] at ht
  have henc := encodeMsg_eq _ _ _ _ ht
  have e : gimbalRotationMsg y p = encodeMsg (byteHex 0x02 ++ byteHex 0x00)
      (bytesToHex [((y + 256) % 256).toNat, ((p + 256) % 256).toNat]) (byteHex 0x07) := by
    unfold gimbalRotationMsg
    rw [hy, hq]
    rfl
  have hmsg : gimbalRotationMsg y p =
      bytesToHex ([0x55, 0x66, 0x01, 0x02, 0x00, 0x00, 0x00, 0x07] ++
        [((y + 256) % 256).toNat, ((p + 256) % 256).toNat]) ++ t := by
    rw [e, henc, msg_front_eq]
  refine ⟨hy, ?_, ?_, ?_⟩
  · rw [hy]; rfl
  · rw [hmsg]; exact List.cons_ne_nil _ _
  · rw [hmsg]; rfl

set_option maxRecDepth 8000 in
/-- C10: `setZoom`'s message selection partitions the flag space as
`1 → zoom-in`, `−1 → zoom-out`, and everything else (not only `0`) → stop-zoom;
the three messages are pairwise distinct where it matters. -/
theorem C10_setZoom_partition :
    (∀ flag : Int, flag ≠ 1 → flag ≠ -1 → setZoomMsg flag = stopZoomMsg) ∧
    setZoomMsg 1 = zoomInMsg ∧ setZoomMsg (-1) = zoomOutMsg ∧
    stopZoomMsg ≠ zoomInMsg ∧ stopZoomMsg ≠ zoomOutMsg := by
  refine ⟨fun flag hf1 hf2 => ?_, rfl, rfl, by decide, by decide⟩
  unfold setZoomMsg
  rw [if_neg hf1, if_neg hf2]

/-- C10 witness: the out-of-catalogue flag `7` (neither `1`, `-1` nor `0`)
selects the stop-zoom message. -/
theorem C10_witness : setZoomMsg 7 = stopZoomMsg ∧ setZoomMsg 1 = zoomInMsg :=
  ⟨C10_setZoom_partition.1 7 (by decide) (by decide), C10_setZoom_partition.2.1⟩
